import Mathlib

/-!
Shallow embedding of the player history log in `src/player-history.c`
(Angband character auto-history).

Modelling choices:
 * A `bitflag` array (`hist_wipe` / `hist_on` / `hist_off` / `hist_has` /
   `hist_copy`) is a finite set of flag indices, `Finset Nat`.
 * `struct history_info` becomes `HistoryInfo`; the fixed-size `event`
   buffer becomes a `String` (none of the verified operations inspect it).
 * `player->hist` becomes `HistoryState`.  The C struct stores a pointer
   `entries` (possibly NULL), a capacity `length` and a fill counter
   `next`; only the slots below `next` are ever read, so the model keeps
   the in-use prefix as a Lean list, with `next` being its length, plus
   the capacity `length` and an `alloc` bit recording whether the
   `entries` pointer is non-NULL.
 * The reverse index loops `i = next; while (i--) ...` that mutate the
   most recent matching slot become `updateLastMatch`; the read-only
   reverse scans with early exit become `List.any` over the reversed
   entry list.
 * The ambient player context (`player->depth`, `player->lev`,
   `player->total_energy`) is passed explicitly as `PlayerCtx`, and the
   artifact name produced by the external `object_desc` formatter is
   passed as a `String`.
 * An `struct artifact *` argument is its `aidx` (a `Nat`); the functions
   that accept NULL take an `Option Nat`.
-/

/-- Flag index HIST_ARTIFACT_UNKNOWN from player-history.h. -/
def HIST_ARTIFACT_UNKNOWN : Nat := 1

/-- Flag index HIST_ARTIFACT_KNOWN from player-history.h. -/
def HIST_ARTIFACT_KNOWN : Nat := 2

/-- Flag index HIST_ARTIFACT_LOST from player-history.h. -/
def HIST_ARTIFACT_LOST : Nat := 3

/-- A history `bitflag` array: the set of flag indices that are on. -/
abbrev HistFlags : Type := Finset Nat

/-- hist_wipe: clear all flags. -/
def hist_wipe : HistFlags := ∅

/-- hist_on: turn a flag on. -/
def hist_on (f : HistFlags) (t : Nat) : HistFlags := insert t f

/-- hist_off: turn a flag off. -/
def hist_off (f : HistFlags) (t : Nat) : HistFlags := f.erase t

/-- hist_has: test a flag. -/
def hist_has (f : HistFlags) (t : Nat) : Bool := decide (t ∈ f)

/-- struct history_info from player-history.h. -/
structure HistoryInfo where
  type : HistFlags
  dlev : Int
  clev : Int
  a_idx : Nat
  turn : Int
  event : String
deriving DecidableEq

/-- The player history store: the `hist` member of `struct player`.
`entries` is the in-use prefix (length = the C `next` counter), `length`
the allocated capacity, `alloc` whether the entries pointer is non-NULL. -/
structure HistoryState where
  alloc : Bool
  length : Nat
  entries : List HistoryInfo
deriving DecidableEq

/-- HISTORY_BIRTH_SIZE in player-history.c. -/
def HISTORY_BIRTH_SIZE : Nat := 10

/-- HISTORY_MAX in player-history.c. -/
def HISTORY_MAX : Nat := 5000

/-- The store of a fresh player: NULL entries pointer, next = length = 0. -/
def emptyHist : HistoryState := { alloc := false, length := 0, entries := [] }

/-- history_init: allocate a zeroed list of `n` slots with next = 0. -/
def history_init (n : Nat) : HistoryState :=
  { alloc := true, length := n, entries := [] }

/-- history_clear: free the entries and reset; no-op when the pointer is
already NULL. -/
def history_clear (st : HistoryState) : HistoryState :=
  if st.alloc = false then st else emptyHist

/-- history_set_num: clamp the requested size to HISTORY_MAX, fail if it
does not exceed the current capacity, otherwise reallocate (keeping the
stored entries) and record the new capacity. -/
def history_set_num (num : Nat) (st : HistoryState) : Bool × HistoryState :=
  let num2 := min num HISTORY_MAX
  if num2 ≤ st.length then (false, st)
  else (true, { st with alloc := true, length := num2 })

/-- history_get_num: the `next` counter. -/
def history_get_num (st : HistoryState) : Nat := st.entries.length

/-- The ambient player fields read by history_add and
history_add_artifact. -/
structure PlayerCtx where
  depth : Int
  lev : Int
  total_energy : Int
deriving DecidableEq

/-- One history entry as filled in by history_add_full: the C line
`a_idx = artifact ? artifact->aidx : 0` is the `Option.getD`. -/
def mkEntry (type : HistFlags) (artifact : Option Nat) (dlev clev : Int)
    (turnno : Int) (text : String) : HistoryInfo :=
  { type := type, dlev := dlev, clev := clev, a_idx := artifact.getD 0,
    turn := turnno, event := text }

/-- Write an entry at slot `next` and increment `next`. -/
def appendEntry (st : HistoryState) (e : HistoryInfo) : HistoryState :=
  { st with entries := st.entries ++ [e] }

/-- Apply `f` to the LAST element of the list satisfying `p`, or return
`none` when no element satisfies `p`.  This mirrors the C pattern
`i = next; while (i--) if (p(entries[i])) then mutate entries[i], done;`:
the reverse index scan touches the most recently appended match. -/
def updateLastMatch (p : HistoryInfo → Bool) (f : HistoryInfo → HistoryInfo) :
    List HistoryInfo → Option (List HistoryInfo)
  | [] => none
  | x :: xs =>
    match updateLastMatch p f xs with
    | some xs2 => some (x :: xs2)
    | none => if p x then some (f x :: xs) else none

/-- history_know_artifact: reverse-scan for the latest entry with this
artifact index (in any state), wipe its flags and set
HIST_ARTIFACT_KNOWN; false when no entry matches. -/
def history_know_artifact (aidx : Nat) (st : HistoryState) : Bool × HistoryState :=
  match updateLastMatch (fun e => e.a_idx == aidx)
      (fun e => { e with type := hist_on hist_wipe HIST_ARTIFACT_KNOWN })
      st.entries with
  | some es => (true, { st with entries := es })
  | none => (false, st)

/-- history_add_full: allocate at birth size when unallocated, grow by 10
when full (failing exactly when history_set_num fails), then append. -/
def history_add_full (type : HistFlags) (artifact : Option Nat)
    (dlev clev : Int) (turnno : Int) (text : String) (st : HistoryState) :
    Bool × HistoryState :=
  if st.alloc = false then
    (true, appendEntry (history_init HISTORY_BIRTH_SIZE)
      (mkEntry type artifact dlev clev turnno text))
  else if st.entries.length = st.length then
    match history_set_num (st.length + 10) st with
    | (false, _) => (false, st)
    | (true, st2) => (true, appendEntry st2 (mkEntry type artifact dlev clev turnno text))
  else
    (true, appendEntry st (mkEntry type artifact dlev clev turnno text))

/-- history_add: build a one-flag set and append with the ambient player
context. -/
def history_add (ctx : PlayerCtx) (event : String) (type : Nat)
    (artifact : Option Nat) (st : HistoryState) : Bool × HistoryState :=
  history_add_full (hist_on hist_wipe type) artifact ctx.depth ctx.lev
    (ctx.total_energy / 100) event st

/-- history_is_artifact_known: reverse scan returning true at the first
entry that both carries HIST_ARTIFACT_KNOWN and matches the artifact
index. -/
def history_is_artifact_known (aidx : Nat) (st : HistoryState) : Bool :=
  st.entries.reverse.any
    (fun e => hist_has e.type HIST_ARTIFACT_KNOWN && e.a_idx == aidx)

/-- history_is_artifact_logged: reverse scan skipping entries flagged
HIST_ARTIFACT_LOST, returning true at the first remaining match. -/
def history_is_artifact_logged (aidx : Nat) (st : HistoryState) : Bool :=
  st.entries.reverse.any
    (fun e => !hist_has e.type HIST_ARTIFACT_LOST && e.a_idx == aidx)

/-- history_add_artifact: the artifact wrapper.  `o_name` is the
description produced by the external object_desc collaborator. -/
def history_add_artifact (ctx : PlayerCtx) (o_name : String) (aidx : Nat)
    (known found : Bool) (st : HistoryState) : Bool × HistoryState :=
  let buf := (if found then "Found " else "Missed ") ++ o_name
  if known then
    if history_is_artifact_logged aidx st then
      (true, (history_know_artifact aidx st).2)
    else
      (true, (history_add ctx buf HIST_ARTIFACT_KNOWN (some aidx) st).2)
  else
    if !history_is_artifact_logged aidx st then
      let type :=
        if found then hist_on hist_wipe HIST_ARTIFACT_UNKNOWN
        else hist_on (hist_on hist_wipe HIST_ARTIFACT_UNKNOWN) HIST_ARTIFACT_LOST
      (true, (history_add_full type (some aidx) ctx.depth ctx.lev
        (ctx.total_energy / 100) buf st).2)
    else
      (false, st)

/-- history_lose_artifact: set HIST_ARTIFACT_LOST on the latest matching
entry; when no entry matches, record the miss through
history_add_artifact and still return false. -/
def history_lose_artifact (ctx : PlayerCtx) (o_name : String) (aidx : Nat)
    (st : HistoryState) : Bool × HistoryState :=
  match updateLastMatch (fun e => e.a_idx == aidx)
      (fun e => { e with type := hist_on e.type HIST_ARTIFACT_LOST })
      st.entries with
  | some es => (true, { st with entries := es })
  | none => (false, (history_add_artifact ctx o_name aidx false false st).2)

/-- Body of the history_unmask_unknown loop for one entry. -/
def unmaskEntry (e : HistoryInfo) : HistoryInfo :=
  if hist_has e.type HIST_ARTIFACT_UNKNOWN then
    { e with type := hist_on (hist_off e.type HIST_ARTIFACT_UNKNOWN) HIST_ARTIFACT_KNOWN }
  else e

/-- history_unmask_unknown: convert every HIST_ARTIFACT_UNKNOWN entry to
HIST_ARTIFACT_KNOWN (the loop touches each slot independently). -/
def history_unmask_unknown (st : HistoryState) : HistoryState :=
  { st with entries := st.entries.map unmaskEntry }

/-- history_get_list: the in-use entries and their count. -/
def history_get_list (st : HistoryState) : List HistoryInfo × Nat :=
  (st.entries, st.entries.length)

/-- The latest (most recently appended) entry matching an artifact index,
in any state; the reference point of the spec's reverse-scan rule. -/
def findLatest (aidx : Nat) (st : HistoryState) : Option HistoryInfo :=
  st.entries.reverse.find? (fun e => e.a_idx == aidx)

/-- States reachable through the public operations: capacity at most
HISTORY_MAX and a multiple of 10, the fill counter within capacity, and
a NULL entries pointer only in the fully reset state. -/
def WF (st : HistoryState) : Prop :=
  st.length ≤ HISTORY_MAX ∧ 10 ∣ st.length ∧ st.entries.length ≤ st.length ∧
    (st.alloc = false → st.length = 0 ∧ st.entries = [])

instance (st : HistoryState) : Decidable (WF st) := by
  unfold WF
  infer_instance

/-- A fixed player context for concrete test states. -/
def ctx0 : PlayerCtx := { depth := 0, lev := 1, total_energy := 0 }

/-- Concrete entry: artifact 1 logged and known. -/
def eKnown1 : HistoryInfo :=
  { type := {HIST_ARTIFACT_KNOWN}, dlev := 0, clev := 1, a_idx := 1, turn := 0, event := "" }

/-- Concrete entry: artifact 1 logged, unidentified, still in play. -/
def eUnknown1 : HistoryInfo :=
  { type := {HIST_ARTIFACT_UNKNOWN}, dlev := 0, clev := 1, a_idx := 1, turn := 0, event := "" }

/-- Concrete entry: artifact 1 logged, unidentified and lost. -/
def eLost1 : HistoryInfo :=
  { type := {HIST_ARTIFACT_UNKNOWN, HIST_ARTIFACT_LOST}, dlev := 0, clev := 1, a_idx := 1,
    turn := 0, event := "" }

/-- Concrete entry: artifact 2 logged, unidentified. -/
def eOther2 : HistoryInfo :=
  { type := {HIST_ARTIFACT_UNKNOWN}, dlev := 0, clev := 1, a_idx := 2, turn := 0, event := "" }

/-- Store whose artifact-1 history is: known entry, then a newer entry
without the known flag. -/
def stC2 : HistoryState := { alloc := true, length := 10, entries := [eKnown1, eUnknown1] }

/-- Store holding a single active (non-lost) entry for artifact 1. -/
def stActive1 : HistoryState := { alloc := true, length := 10, entries := [eUnknown1] }

/-- Store holding a single entry for artifact 1 that is flagged lost. -/
def stLost1 : HistoryState := { alloc := true, length := 10, entries := [eLost1] }

/-- Store at the hard cap and full: 5000 entries, none for artifact 1. -/
def stFull : HistoryState :=
  { alloc := true, length := 5000, entries := List.replicate 5000 eOther2 }

/-! Helper lemmas about the reverse scans. -/

theorem updateLastMatch_none_iff (p : HistoryInfo → Bool) (f : HistoryInfo → HistoryInfo) :
    ∀ l : List HistoryInfo, updateLastMatch p f l = none ↔ ∀ e ∈ l, p e = false := by
  intro l
  induction l with
  | nil => simp [updateLastMatch]
  | cons x xs ih =>
    rw [updateLastMatch]
    rcases h : updateLastMatch p f xs with _ | xs2
    · have hxs : ∀ e ∈ xs, p e = false := ih.mp h
      by_cases hp : p x = true
      · simp [hp]
      · simp only [Bool.not_eq_true] at hp
        simp [hp]
        exact hxs
    · constructor
      · intro hc
        simp at hc
      · intro hall
        have : updateLastMatch p f xs = none := ih.mpr (fun e he => hall e (by simp [he]))
        rw [h] at this
        simp at this

theorem updateLastMatch_some (p : HistoryInfo → Bool) (f : HistoryInfo → HistoryInfo) :
    ∀ l l2 : List HistoryInfo, updateLastMatch p f l = some l2 →
      ∃ l1 x r, l = l1 ++ x :: r ∧ p x = true ∧ (∀ e ∈ r, p e = false) ∧
        l2 = l1 ++ f x :: r := by
  intro l
  induction l with
  | nil => intro l2 h; simp [updateLastMatch] at h
  | cons y ys ih =>
    intro l2 h
    rw [updateLastMatch] at h
    rcases hys : updateLastMatch p f ys with _ | ys2
    · rw [hys] at h
      by_cases hp : p y = true
      · rw [if_pos hp] at h
        refine ⟨[], y, ys, by simp, hp, (updateLastMatch_none_iff p f ys).mp hys, ?_⟩
        simpa using h.symm
      · rw [if_neg hp] at h
        simp at h
    · rw [hys] at h
      have h2 : y :: ys2 = l2 := by simpa using h
      rcases ih ys2 hys with ⟨l1, x, r, hys_eq, hpx, hr, hys2⟩
      exact ⟨y :: l1, x, r, by simp [hys_eq], hpx, hr, by simp [← h2, hys2]⟩

theorem is_known_iff (aidx : Nat) (st : HistoryState) :
    history_is_artifact_known aidx st = true ↔
      ∃ e ∈ st.entries, HIST_ARTIFACT_KNOWN ∈ e.type ∧ e.a_idx = aidx := by
  unfold history_is_artifact_known hist_has
  simp [List.any_eq_true]

theorem is_logged_iff (aidx : Nat) (st : HistoryState) :
    history_is_artifact_logged aidx st = true ↔
      ∃ e ∈ st.entries, HIST_ARTIFACT_LOST ∉ e.type ∧ e.a_idx = aidx := by
  unfold history_is_artifact_logged hist_has
  simp [List.any_eq_true]

theorem history_add_full_spec (type : HistFlags) (artifact : Option Nat)
    (dlev clev turnno : Int) (text : String) (st : HistoryState) :
    history_add_full type artifact dlev clev turnno text st =
      (if st.alloc = false then
        (true, { alloc := true, length := HISTORY_BIRTH_SIZE,
                 entries := [mkEntry type artifact dlev clev turnno text] })
      else if st.entries.length = st.length ∧ HISTORY_MAX ≤ st.length then
        (false, st)
      else if st.entries.length = st.length then
        (true, { alloc := true, length := min (st.length + 10) HISTORY_MAX,
                 entries := st.entries ++ [mkEntry type artifact dlev clev turnno text] })
      else
        (true, { st with
                 entries := st.entries ++ [mkEntry type artifact dlev clev turnno text] })) := by
  unfold history_add_full history_set_num appendEntry history_init
  by_cases ha : st.alloc = false
  · simp [ha]
  · have hminle : (min (st.length + 10) HISTORY_MAX ≤ st.length) ↔ HISTORY_MAX ≤ st.length := by
      rw [min_le_iff]
      omega
    by_cases hf : st.entries.length = st.length
    · by_cases hm : HISTORY_MAX ≤ st.length
      · simp [ha, hf, hm, hminle.mpr hm]
      · simp [ha, hf, hm, hminle]
    · simp [ha, hf]

theorem updateLastMatch_length (p : HistoryInfo → Bool) (f : HistoryInfo → HistoryInfo)
    (l l2 : List HistoryInfo) (h : updateLastMatch p f l = some l2) :
    l2.length = l.length := by
  rcases updateLastMatch_some p f l l2 h with ⟨l1, x, r, h1, _, _, h2⟩
  simp [h1, h2]

theorem no_match_not_logged (aidx : Nat) (st : HistoryState)
    (h : ∀ e ∈ st.entries, e.a_idx ≠ aidx) :
    history_is_artifact_logged aidx st = false := by
  rw [← Bool.not_eq_true, is_logged_iff]
  rintro ⟨e, he, -, hea⟩
  exact h e he hea

theorem add_full_appends (type : HistFlags) (artifact : Option Nat)
    (dlev clev turnno : Int) (text : String) (st : HistoryState)
    (hwf : WF st) (hlt : st.entries.length < HISTORY_MAX) :
    (history_add_full type artifact dlev clev turnno text st).1 = true ∧
    ((history_add_full type artifact dlev clev turnno text st).2).entries =
      st.entries ++ [mkEntry type artifact dlev clev turnno text] := by
  obtain ⟨h1, h2, h3, h4⟩ := hwf
  rw [history_add_full_spec]
  by_cases ha : st.alloc = false
  · rcases h4 ha with ⟨hl, he⟩
    simp [ha, he]
  · by_cases hf : st.entries.length = st.length
    · have hm : ¬ HISTORY_MAX ≤ st.length := by omega
      simp [ha, hf, hm]
    · simp [ha, hf]

theorem add_artifact_unknown_appends (ctx : PlayerCtx) (o_name : String) (aidx : Nat)
    (found : Bool) (st : HistoryState) (h : history_is_artifact_logged aidx st = false)
    (hwf : WF st) (hlt : st.entries.length < HISTORY_MAX) :
    (history_add_artifact ctx o_name aidx false found st).1 = true ∧
    ∃ e, ((history_add_artifact ctx o_name aidx false found st).2).entries = st.entries ++ [e] ∧
      e.a_idx = aidx ∧
      e.type = (if found then ({HIST_ARTIFACT_UNKNOWN} : Finset Nat)
                else {HIST_ARTIFACT_UNKNOWN, HIST_ARTIFACT_LOST}) := by
  unfold history_add_artifact
  rw [h]
  have happ := add_full_appends
    (if found then hist_on hist_wipe HIST_ARTIFACT_UNKNOWN
     else hist_on (hist_on hist_wipe HIST_ARTIFACT_UNKNOWN) HIST_ARTIFACT_LOST)
    (some aidx) ctx.depth ctx.lev (ctx.total_energy / 100)
    ((if found then "Found " else "Missed ") ++ o_name) st hwf hlt
  refine ⟨by simp, ?_⟩
  refine ⟨_, by simpa using happ.2, rfl, ?_⟩
  cases found
  · simp [mkEntry]
    decide
  · simp [mkEntry]
    decide

theorem lose_no_match (ctx : PlayerCtx) (o_name : String) (aidx : Nat) (st : HistoryState)
    (h : ∀ e ∈ st.entries, e.a_idx ≠ aidx) :
    history_lose_artifact ctx o_name aidx st =
      (false, (history_add_artifact ctx o_name aidx false false st).2) := by
  unfold history_lose_artifact
  rw [(updateLastMatch_none_iff _ _ _).mpr (fun e he => by simpa using h e he)]

theorem lose_no_match_spec (ctx : PlayerCtx) (o_name : String) (aidx : Nat) (st : HistoryState)
    (h : ∀ e ∈ st.entries, e.a_idx ≠ aidx) (hwf : WF st)
    (hlt : st.entries.length < HISTORY_MAX) :
    (history_lose_artifact ctx o_name aidx st).1 = false ∧
    ∃ e, ((history_lose_artifact ctx o_name aidx st).2).entries = st.entries ++ [e] ∧
      e.a_idx = aidx ∧ e.type = {HIST_ARTIFACT_UNKNOWN, HIST_ARTIFACT_LOST} := by
  rw [lose_no_match ctx o_name aidx st h]
  rcases add_artifact_unknown_appends ctx o_name aidx false st
    (no_match_not_logged aidx st h) hwf hlt with ⟨-, e, he, hea, het⟩
  exact ⟨rfl, e, he, hea, by simpa using het⟩

theorem unmaskEntry_idem (e : HistoryInfo) : unmaskEntry (unmaskEntry e) = unmaskEntry e := by
  unfold unmaskEntry hist_has hist_on hist_off
  by_cases h : HIST_ARTIFACT_UNKNOWN ∈ e.type
  · have h2 : HIST_ARTIFACT_UNKNOWN ∉
        insert HIST_ARTIFACT_KNOWN (e.type.erase HIST_ARTIFACT_UNKNOWN) := by
      rw [Finset.mem_insert]
      rintro (hc | hc)
      · exact absurd hc (by decide)
      · exact absurd hc (Finset.not_mem_erase _ _)
    simp [h, h2]
  · simp [h]

/-! Claim theorems. -/

/-- C2, counterexample: in a store whose latest entry for artifact 1
lacks HIST_ARTIFACT_KNOWN while an older entry carries it,
history_is_artifact_known still returns true, contradicting the claim
that the result is decided by the latest matching entry alone. -/
theorem C2_ce_older_entry_wins :
    findLatest 1 stC2 = some eUnknown1 ∧
    hist_has eUnknown1.type HIST_ARTIFACT_KNOWN = false ∧
    history_is_artifact_known 1 stC2 = true := by
  decide

/-- C2, amended: history_is_artifact_known aidx st is true iff SOME entry
for that artifact id (not necessarily the latest) carries
HIST_ARTIFACT_KNOWN: the reverse scan skips matching entries that lack
the flag instead of stopping at them. -/
theorem C2_is_known_iff_some_known_entry (aidx : Nat) (st : HistoryState) :
    history_is_artifact_known aidx st = true ↔
      ∃ e ∈ st.entries, HIST_ARTIFACT_KNOWN ∈ e.type ∧ e.a_idx = aidx :=
  is_known_iff aidx st

/-- C4: history_add_artifact with known = true always returns true,
whatever the store state: the results of history_know_artifact and
history_add are discarded in that branch. -/
theorem C4_add_artifact_known_reports_true (ctx : PlayerCtx) (o_name : String)
    (aidx : Nat) (found : Bool) (st : HistoryState) :
    (history_add_artifact ctx o_name aidx true found st).1 = true := by
  unfold history_add_artifact
  by_cases h : history_is_artifact_logged aidx st = true <;> simp [h]

/-- C5: when an active (non-lost) entry exists for the artifact,
history_add_artifact with known = false returns false and leaves the
store untouched. -/
theorem C5_unknown_conflict_noop (ctx : PlayerCtx) (o_name : String) (aidx : Nat)
    (found : Bool) (st : HistoryState)
    (h : history_is_artifact_logged aidx st = true) :
    history_add_artifact ctx o_name aidx false found st = (false, st) := by
  unfold history_add_artifact
  simp [h]

/-- C5, witness: the conflict branch on a store with one active entry for
artifact 1. -/
theorem C5_witness :
    history_is_artifact_logged 1 stActive1 = true ∧
    history_add_artifact ctx0 "the Phial" 1 false true stActive1 = (false, stActive1) :=
  ⟨by decide, C5_unknown_conflict_noop ctx0 "the Phial" 1 true stActive1 (by decide)⟩

/-- C6: under the reachable-store invariant, history_add_full fails iff
the store is full at the hard cap (next = length = 5000), and a failed
append leaves the store unchanged; no other condition rejects an
append. -/
theorem C6_append_rejected_iff_at_cap (type : HistFlags) (artifact : Option Nat)
    (dlev clev turnno : Int) (text : String) (st : HistoryState) (hwf : WF st) :
    ((history_add_full type artifact dlev clev turnno text st).1 = false ↔
      st.entries.length = HISTORY_MAX ∧ st.length = HISTORY_MAX) ∧
    ((history_add_full type artifact dlev clev turnno text st).1 = false →
      (history_add_full type artifact dlev clev turnno text st).2 = st) := by
  obtain ⟨h1, h2, h3, h4⟩ := hwf
  rw [history_add_full_spec]
  by_cases ha : st.alloc = false
  · rcases h4 ha with ⟨hl, he⟩
    have : (0 : Nat) ≠ HISTORY_MAX := by decide
    simp [ha, he, hl, this]
  · by_cases hf : st.entries.length = st.length
    · by_cases hm : HISTORY_MAX ≤ st.length
      · have hEq : st.length = HISTORY_MAX := le_antisymm h1 hm
        simp [ha, hf, hm, hEq]
      · have hne : st.length ≠ HISTORY_MAX := by omega
        simp [ha, hf, hm, hne]
    · simp [ha, hf]
      intro hx hy
      exact hf (hx.trans hy.symm)

/-- C6, witness: at the full capped store the append is rejected and the
store is unchanged. -/
theorem C6_witness :
    WF stFull ∧
    (((history_add_full hist_wipe none 0 0 0 "" stFull).1 = false ↔
      stFull.entries.length = HISTORY_MAX ∧ stFull.length = HISTORY_MAX) ∧
    ((history_add_full hist_wipe none 0 0 0 "" stFull).1 = false →
      (history_add_full hist_wipe none 0 0 0 "" stFull).2 = stFull)) := by
  have hwf : WF stFull :=
    ⟨Nat.le_refl 5000, ⟨500, rfl⟩, Nat.le_of_eq (List.length_replicate 5000 eOther2),
      fun hc => Bool.noConfusion (show true = false from hc)⟩
  exact ⟨hwf, C6_append_rejected_iff_at_cap hist_wipe none 0 0 0 "" stFull hwf⟩

/-- C7: appending to an unallocated store succeeds and allocates exactly
the birth capacity 10; appending to a full allocated store below the cap
grows the capacity by exactly 10; in every case the capacity grows by at
most 10 and never exceeds 5000. -/
theorem C7_growth_policy (type : HistFlags) (artifact : Option Nat)
    (dlev clev turnno : Int) (text : String) (st : HistoryState) (hwf : WF st) :
    (st.alloc = false →
      (history_add_full type artifact dlev clev turnno text st).1 = true ∧
      ((history_add_full type artifact dlev clev turnno text st).2).length = HISTORY_BIRTH_SIZE) ∧
    (st.alloc = true → st.entries.length = st.length → st.length < HISTORY_MAX →
      (history_add_full type artifact dlev clev turnno text st).1 = true ∧
      ((history_add_full type artifact dlev clev turnno text st).2).length = st.length + 10) ∧
    ((history_add_full type artifact dlev clev turnno text st).2).length ≤ st.length + 10 ∧
    ((history_add_full type artifact dlev clev turnno text st).2).length ≤ HISTORY_MAX := by
  obtain ⟨h1, h2, h3, h4⟩ := hwf
  have hM : HISTORY_MAX = 5000 := rfl
  rw [history_add_full_spec]
  by_cases ha : st.alloc = false
  · rw [if_pos ha]
    refine ⟨fun _ => ⟨rfl, rfl⟩, fun hat => absurd ha (by simp [hat]), ?_, ?_⟩
    · exact Nat.le_add_left 10 st.length
    · show HISTORY_BIRTH_SIZE ≤ HISTORY_MAX
      decide
  · by_cases hf : st.entries.length = st.length
    · by_cases hm : HISTORY_MAX ≤ st.length
      · rw [if_neg ha, if_pos ⟨hf, hm⟩]
        refine ⟨fun hfa => absurd hfa ha,
          fun _ _ hlt => absurd hm (not_le_of_lt hlt),
          Nat.le_add_right st.length 10, h1⟩
      · have hmin : min (st.length + 10) HISTORY_MAX = st.length + 10 := by
          rw [min_eq_left]
          rw [hM] at h1 hm ⊢
          omega
        rw [if_neg ha, if_neg (fun h => hm h.2), if_pos hf]
        refine ⟨fun hfa => absurd hfa ha, fun _ _ _ => ⟨rfl, hmin⟩, ?_, ?_⟩
        · exact le_of_eq hmin
        · exact min_le_right _ _
    · rw [if_neg ha, if_neg (fun h => hf h.1), if_neg hf]
      exact ⟨fun hfa => absurd hfa ha, fun _ hff _ => absurd hff hf,
        Nat.le_add_right st.length 10, h1⟩

/-- C7, witness: the first append to the fresh store allocates the birth
capacity. -/
theorem C7_witness :
    WF emptyHist ∧
    ((emptyHist.alloc = false →
      (history_add_full hist_wipe none 0 0 0 "" emptyHist).1 = true ∧
      ((history_add_full hist_wipe none 0 0 0 "" emptyHist).2).length = HISTORY_BIRTH_SIZE) ∧
    (emptyHist.alloc = true → emptyHist.entries.length = emptyHist.length →
      emptyHist.length < HISTORY_MAX →
      (history_add_full hist_wipe none 0 0 0 "" emptyHist).1 = true ∧
      ((history_add_full hist_wipe none 0 0 0 "" emptyHist).2).length = emptyHist.length + 10) ∧
    ((history_add_full hist_wipe none 0 0 0 "" emptyHist).2).length ≤ emptyHist.length + 10 ∧
    ((history_add_full hist_wipe none 0 0 0 "" emptyHist).2).length ≤ HISTORY_MAX) := by
  have hwf : WF emptyHist := by decide
  exact ⟨hwf, C7_growth_policy hist_wipe none 0 0 0 "" emptyHist hwf⟩

theorem unmask_map_idem (l : List HistoryInfo) :
    (l.map unmaskEntry).map unmaskEntry = l.map unmaskEntry := by
  induction l with
  | nil => rfl
  | cons a l ih => simp [ih, unmaskEntry_idem]

/-- C8: history_know_artifact fails and changes nothing when no entry
matches the artifact id; otherwise it returns true, resets the type of
the latest matching entry to exactly the singleton
HIST_ARTIFACT_KNOWN flag set (leaving every other entry untouched), and
history_is_artifact_known then holds. -/
theorem C8_know_artifact_spec (aidx : Nat) (st : HistoryState) :
    ((∀ e ∈ st.entries, e.a_idx ≠ aidx) → history_know_artifact aidx st = (false, st)) ∧
    ((∃ e ∈ st.entries, e.a_idx = aidx) →
      (history_know_artifact aidx st).1 = true ∧
      history_is_artifact_known aidx (history_know_artifact aidx st).2 = true ∧
      ∃ l x r, st.entries = l ++ x :: r ∧ x.a_idx = aidx ∧ (∀ e ∈ r, e.a_idx ≠ aidx) ∧
        ((history_know_artifact aidx st).2).entries =
          l ++ ({ x with type := ({HIST_ARTIFACT_KNOWN} : Finset Nat) }) :: r) := by
  have hsingle : hist_on hist_wipe HIST_ARTIFACT_KNOWN = ({HIST_ARTIFACT_KNOWN} : Finset Nat) := by
    decide
  constructor
  · intro hall
    unfold history_know_artifact
    rw [(updateLastMatch_none_iff _ _ _).mpr (fun e he => by simpa using hall e he)]
  · rintro ⟨e0, he0, he0a⟩
    rcases hu : updateLastMatch (fun e => e.a_idx == aidx)
        (fun e => { e with type := hist_on hist_wipe HIST_ARTIFACT_KNOWN }) st.entries with _ | es
    · exact absurd ((updateLastMatch_none_iff _ _ _).mp hu e0 he0) (by simp [he0a])
    · have hres : history_know_artifact aidx st = (true, { st with entries := es }) := by
        unfold history_know_artifact
        rw [hu]
      rcases updateLastMatch_some _ _ _ _ hu with ⟨l, x, r, hsplit, hpx, hr, hes⟩
      have hxa : x.a_idx = aidx := by simpa using hpx
      have hmem : ({ x with type := ({HIST_ARTIFACT_KNOWN} : Finset Nat) }) ∈ es := by
        rw [hes, hsingle]
        exact List.mem_append_right _ (List.mem_cons_self _ _)
      refine ⟨by rw [hres], ?_, l, x, r, hsplit, hxa,
        fun e he => by simpa using hr e he, ?_⟩
      · rw [hres, is_known_iff]
        exact ⟨{ x with type := ({HIST_ARTIFACT_KNOWN} : Finset Nat) }, hmem, by simp, hxa⟩
      · rw [hres]
        show es = _
        rw [hes, hsingle]

/-- C8, witness: marking the single active artifact-1 entry known. -/
theorem C8_witness :
    (∃ e ∈ stActive1.entries, e.a_idx = 1) ∧
    (history_know_artifact 1 stActive1).1 = true ∧
    history_is_artifact_known 1 (history_know_artifact 1 stActive1).2 = true :=
  ⟨by decide, ((C8_know_artifact_spec 1 stActive1).2 (by decide)).1,
    (((C8_know_artifact_spec 1 stActive1).2 (by decide)).2).1⟩

/-- C9: history_unmask_unknown rewrites exactly the entries carrying
HIST_ARTIFACT_UNKNOWN (clearing that flag, setting
HIST_ARTIFACT_KNOWN, preserving every other flag and field), leaves all
other entries unchanged, and is idempotent. -/
theorem C9_unmask_spec (st : HistoryState) :
    List.Forall₂ (fun e e2 =>
      e2.dlev = e.dlev ∧ e2.clev = e.clev ∧ e2.a_idx = e.a_idx ∧ e2.turn = e.turn ∧
      e2.event = e.event ∧
      (HIST_ARTIFACT_UNKNOWN ∈ e.type →
        HIST_ARTIFACT_UNKNOWN ∉ e2.type ∧ HIST_ARTIFACT_KNOWN ∈ e2.type ∧
        ∀ t : Nat, t ≠ HIST_ARTIFACT_UNKNOWN → t ≠ HIST_ARTIFACT_KNOWN →
          (t ∈ e2.type ↔ t ∈ e.type)) ∧
      (HIST_ARTIFACT_UNKNOWN ∉ e.type → e2 = e))
      st.entries (history_unmask_unknown st).entries ∧
    history_unmask_unknown (history_unmask_unknown st) = history_unmask_unknown st := by
  constructor
  · show List.Forall₂ _ st.entries (st.entries.map unmaskEntry)
    rw [List.forall₂_map_right_iff, List.forall₂_same]
    intro e he
    unfold unmaskEntry
    by_cases h : hist_has e.type HIST_ARTIFACT_UNKNOWN = true
    · rw [if_pos h]
      have hU : HIST_ARTIFACT_UNKNOWN ∈ e.type := by simpa [hist_has] using h
      refine ⟨rfl, rfl, rfl, rfl, rfl, fun _ => ⟨?_, ?_, ?_⟩, fun hc => absurd hU hc⟩
      · show HIST_ARTIFACT_UNKNOWN ∉ hist_on (hist_off e.type HIST_ARTIFACT_UNKNOWN) HIST_ARTIFACT_KNOWN
        simp [hist_on, hist_off, HIST_ARTIFACT_UNKNOWN, HIST_ARTIFACT_KNOWN]
      · show HIST_ARTIFACT_KNOWN ∈ hist_on (hist_off e.type HIST_ARTIFACT_UNKNOWN) HIST_ARTIFACT_KNOWN
        simp [hist_on]
      · intro t ht1 ht2
        show t ∈ hist_on (hist_off e.type HIST_ARTIFACT_UNKNOWN) HIST_ARTIFACT_KNOWN ↔ t ∈ e.type
        simp [hist_on, hist_off, Finset.mem_insert, Finset.mem_erase, ht1, ht2]
    · rw [if_neg h]
      have hU : HIST_ARTIFACT_UNKNOWN ∉ e.type := by simpa [hist_has] using h
      exact ⟨rfl, rfl, rfl, rfl, rfl, fun hc => absurd hc hU, fun _ => rfl⟩
  · simp only [history_unmask_unknown, List.map_map]
    simp
    exact fun a _ => unmaskEntry_idem a

theorem lose_single_match (ctx : PlayerCtx) (o_name : String) (aidx : Nat)
    (st : HistoryState) (e : HistoryInfo) (hents : st.entries = [e]) (hea : e.a_idx = aidx) :
    history_lose_artifact ctx o_name aidx st =
      (true, { st with entries := [{ e with type := hist_on e.type HIST_ARTIFACT_LOST }] }) := by
  unfold history_lose_artifact
  rw [hents]
  simp [updateLastMatch, hea]

/-- C1, counterexample: losing an artifact whose only entry is already
flagged Lost re-marks that entry and returns true instead of creating a
fresh entry, and two successive history_lose_artifact calls on a
never-logged artifact leave ONE entry in the log, not two. -/
theorem C1_ce_second_lose_no_new_entry :
    ((history_lose_artifact ctx0 "the Phial" 1
        (history_lose_artifact ctx0 "the Phial" 1 emptyHist).2).2).entries.length = 1 ∧
    (history_lose_artifact ctx0 "the Phial" 1 stLost1).1 = true ∧
    ((history_lose_artifact ctx0 "the Phial" 1 stLost1).2).entries.length = 1 := by
  decide

/-- C1, amended: history_lose_artifact adds the Lost flag to the latest
matching entry REGARDLESS of whether that entry already carries the Lost
flag (keeping its other flags), returning true whenever any matching
entry exists; consequently a second onArtifactLost call on a
never-logged artifact re-marks the single Unknown+Lost entry created by
the first call and the log still holds exactly one entry. -/
theorem C1_lose_marks_latest_any_state (ctx : PlayerCtx) (o_name : String) (aidx : Nat)
    (st : HistoryState) (h : ∃ e ∈ st.entries, e.a_idx = aidx) :
    (history_lose_artifact ctx o_name aidx st).1 = true ∧
    (∃ l x r, st.entries = l ++ x :: r ∧ x.a_idx = aidx ∧ (∀ e ∈ r, e.a_idx ≠ aidx) ∧
      ((history_lose_artifact ctx o_name aidx st).2).entries =
        l ++ ({ x with type := hist_on x.type HIST_ARTIFACT_LOST }) :: r) ∧
    ((history_lose_artifact ctx o_name aidx
        (history_lose_artifact ctx o_name aidx emptyHist).2).2).entries.length = 1 := by
  obtain ⟨e0, he0, he0a⟩ := h
  rcases hu : updateLastMatch (fun e => e.a_idx == aidx)
      (fun e => { e with type := hist_on e.type HIST_ARTIFACT_LOST }) st.entries with _ | es
  · exact absurd ((updateLastMatch_none_iff _ _ _).mp hu e0 he0) (by simp [he0a])
  · have hres : history_lose_artifact ctx o_name aidx st = (true, { st with entries := es }) := by
      unfold history_lose_artifact
      rw [hu]
    rcases updateLastMatch_some _ _ _ _ hu with ⟨l, x, r, hsplit, hpx, hr, hes⟩
    refine ⟨by rw [hres], ⟨l, x, r, hsplit, by simpa using hpx,
      fun e he => by simpa using hr e he, by rw [hres]; exact hes⟩, ?_⟩
    rcases lose_no_match_spec ctx o_name aidx emptyHist (by simp [emptyHist])
      (by decide) (by decide) with ⟨-, e, hents, hea, -⟩
    have hents2 : ((history_lose_artifact ctx o_name aidx emptyHist).2).entries = [e] := by
      simpa [emptyHist] using hents
    rw [lose_single_match ctx o_name aidx _ e hents2 hea]
    rfl

/-- C1, witness: a store with one (lost) matching entry satisfies the
existence hypothesis and the lose call reports success. -/
theorem C1_witness :
    (∃ e ∈ stLost1.entries, e.a_idx = 1) ∧
    (history_lose_artifact ctx0 "the Phial" 1 stLost1).1 = true := by
  have h : ∃ e ∈ stLost1.entries, e.a_idx = 1 := by decide
  exact ⟨h, (C1_lose_marks_latest_any_state ctx0 "the Phial" 1 stLost1 h).1⟩

/-- C3, counterexample: when the only entry for artifact 1 is flagged
Lost (inactive), history_add_artifact with known = true appends a second
entry instead of mutating the existing one. -/
theorem C3_ce_inactive_entry_appends :
    stLost1.entries.length = 1 ∧
    ((history_add_artifact ctx0 "the Phial" 1 true true stLost1).2).entries.length = 2 := by
  decide

/-- C3, amended: history_add_artifact with known = true mutates the
latest logged entry via history_know_artifact only when an ACTIVE
(non-Lost) entry exists for the artifact (history_is_artifact_logged);
when no active entry exists (including when all existing entries are
flagged Lost) it appends a brand-new entry flagged exactly Known. -/
theorem C3_known_active_mutates_else_appends (ctx : PlayerCtx) (o_name : String)
    (aidx : Nat) (found : Bool) (st : HistoryState) :
    (history_is_artifact_logged aidx st = true →
      history_add_artifact ctx o_name aidx true found st =
        (true, (history_know_artifact aidx st).2) ∧
      ((history_add_artifact ctx o_name aidx true found st).2).entries.length =
        st.entries.length) ∧
    (history_is_artifact_logged aidx st = false → WF st →
      st.entries.length < HISTORY_MAX →
      ∃ e, ((history_add_artifact ctx o_name aidx true found st).2).entries =
          st.entries ++ [e] ∧
        e.a_idx = aidx ∧ e.type = ({HIST_ARTIFACT_KNOWN} : Finset Nat)) := by
  constructor
  · intro h
    have heq : history_add_artifact ctx o_name aidx true found st =
        (true, (history_know_artifact aidx st).2) := by
      unfold history_add_artifact
      simp [h]
    refine ⟨heq, ?_⟩
    rw [heq]
    unfold history_know_artifact
    rcases hu : updateLastMatch (fun e => e.a_idx == aidx)
        (fun e => { e with type := hist_on hist_wipe HIST_ARTIFACT_KNOWN })
        st.entries with _ | es
    · rcases (is_logged_iff aidx st).mp h with ⟨e, he, -, hea⟩
      exact absurd ((updateLastMatch_none_iff _ _ _).mp hu e he) (by simp [hea])
    · simpa using updateLastMatch_length _ _ _ _ hu
  · intro h hwf hlt
    have happ := add_full_appends (hist_on hist_wipe HIST_ARTIFACT_KNOWN) (some aidx)
      ctx.depth ctx.lev (ctx.total_energy / 100)
      ((if found then "Found " else "Missed ") ++ o_name) st hwf hlt
    have heq : history_add_artifact ctx o_name aidx true found st =
        (true, (history_add ctx ((if found then "Found " else "Missed ") ++ o_name)
          HIST_ARTIFACT_KNOWN (some aidx) st).2) := by
      unfold history_add_artifact
      simp [h]
    rw [heq]
    refine ⟨_, by simpa [history_add] using happ.2, rfl, ?_⟩
    show hist_on hist_wipe HIST_ARTIFACT_KNOWN = ({HIST_ARTIFACT_KNOWN} : Finset Nat)
    decide

/-- C3, witness: with an active artifact-1 entry the known = true call
mutates in place and the entry count is unchanged. -/
theorem C3_witness :
    history_is_artifact_logged 1 stActive1 = true ∧
    ((history_add_artifact ctx0 "the Phial" 1 true true stActive1).2).entries.length =
      stActive1.entries.length :=
  ⟨by decide,
    ((C3_known_active_mutates_else_appends ctx0 "the Phial" 1 true stActive1).1 (by decide)).2⟩

theorem stFull_no_artifact1 : ∀ e ∈ stFull.entries, e.a_idx ≠ 1 := by
  intro e he
  rw [show stFull.entries = List.replicate 5000 eOther2 from rfl] at he
  rw [List.eq_of_mem_replicate he]
  decide

/-- C10, counterexample: on a full store at the 5000-entry cap with no
matching entry, history_lose_artifact returns false but appends NOTHING
(the internal history_add_artifact append fails silently), refuting the
claim that the miss is always successfully recorded. -/
theorem C10_ce_full_log_drops_loss :
    (∀ e ∈ stFull.entries, e.a_idx ≠ 1) ∧
    (history_lose_artifact ctx0 "the Phial" 1 stFull).1 = false ∧
    (history_lose_artifact ctx0 "the Phial" 1 stFull).2 = stFull := by
  have hlose := lose_no_match ctx0 "the Phial" 1 stFull stFull_no_artifact1
  have hlog : history_is_artifact_logged 1 stFull = false :=
    no_match_not_logged 1 stFull stFull_no_artifact1
  have hlen : stFull.entries.length = stFull.length := by
    show (List.replicate 5000 eOther2).length = 5000
    rw [List.length_replicate]
  have haf : ∀ text : String,
      history_add_full (hist_on (hist_on hist_wipe HIST_ARTIFACT_UNKNOWN) HIST_ARTIFACT_LOST)
        (some 1) ctx0.depth ctx0.lev (ctx0.total_energy / 100) text stFull
      = (false, stFull) := by
    intro text
    rw [history_add_full_spec, hlen]
    rw [if_neg (show ¬(stFull.alloc = false) from by decide),
      if_pos (show stFull.length = stFull.length ∧ HISTORY_MAX ≤ stFull.length from
        ⟨rfl, le_refl stFull.length⟩)]
  have hadd : history_add_artifact ctx0 "the Phial" 1 false false stFull =
      (true, stFull) := by
    unfold history_add_artifact
    rw [hlog]
    simp only [Bool.false_eq_true, Bool.not_false, eq_self_iff_true, if_true, if_false]
    rw [haf]
  refine ⟨stFull_no_artifact1, ?_, ?_⟩
  · rw [hlose]
  · rw [hlose, hadd]

/-- C10, amended: history_lose_artifact returns false whenever no
matching entry exists; in that case it records a fresh Unknown+Lost
entry only when the log is below the 5000-entry cap, so its boolean
result signals whether a pre-existing entry was marked Lost, not whether
the loss event was recorded. -/
theorem C10_lose_reports_premark_only (ctx : PlayerCtx) (o_name : String) (aidx : Nat)
    (st : HistoryState) (h : ∀ e ∈ st.entries, e.a_idx ≠ aidx) :
    (history_lose_artifact ctx o_name aidx st).1 = false ∧
    (WF st → st.entries.length < HISTORY_MAX →
      ∃ e, ((history_lose_artifact ctx o_name aidx st).2).entries = st.entries ++ [e] ∧
        e.a_idx = aidx ∧
        e.type = ({HIST_ARTIFACT_UNKNOWN, HIST_ARTIFACT_LOST} : Finset Nat)) := by
  constructor
  · rw [lose_no_match ctx o_name aidx st h]
  · intro hwf hlt
    exact (lose_no_match_spec ctx o_name aidx st h hwf hlt).2

/-- C10, witness: on the fresh store the lose call reports false while
recording the miss. -/
theorem C10_witness :
    (∀ e ∈ emptyHist.entries, e.a_idx ≠ 1) ∧
    (history_lose_artifact ctx0 "the Phial" 1 emptyHist).1 = false := by
  have h : ∀ e ∈ emptyHist.entries, e.a_idx ≠ 1 := by simp [emptyHist]
  exact ⟨h, (C10_lose_reports_premark_only ctx0 "the Phial" 1 emptyHist h).1⟩

/-! The reachable-store invariant WF holds in the fresh state and is
preserved by the operations that touch the allocation, so the WF
hypotheses above cover every store the public API can produce. -/

theorem WF_emptyHist : WF emptyHist := by decide

theorem WF_history_clear (st : HistoryState) (hwf : WF st) : WF (history_clear st) := by
  unfold history_clear
  by_cases ha : st.alloc = false
  · rw [if_pos ha]
    exact hwf
  · rw [if_neg ha]
    exact WF_emptyHist

theorem WF_history_add_full (type : HistFlags) (artifact : Option Nat)
    (dlev clev turnno : Int) (text : String) (st : HistoryState) (hwf : WF st) :
    WF (history_add_full type artifact dlev clev turnno text st).2 := by
  obtain ⟨h1, h2, h3, h4⟩ := hwf
  have hM : HISTORY_MAX = 5000 := rfl
  rw [history_add_full_spec]
  by_cases ha : st.alloc = false
  · rw [if_pos ha]
    refine ⟨?_, ?_, ?_, ?_⟩
    · show HISTORY_BIRTH_SIZE ≤ HISTORY_MAX
      decide
    · show 10 ∣ HISTORY_BIRTH_SIZE
      decide
    · show [mkEntry type artifact dlev clev turnno text].length ≤ HISTORY_BIRTH_SIZE
      simp [HISTORY_BIRTH_SIZE]
    · intro hc
      exact absurd hc (by simp)
  · by_cases hf : st.entries.length = st.length
    · by_cases hm : HISTORY_MAX ≤ st.length
      · rw [if_neg ha, if_pos ⟨hf, hm⟩]
        exact ⟨h1, h2, h3, h4⟩
      · rw [if_neg ha, if_neg (fun h => hm h.2), if_pos hf]
        refine ⟨min_le_right _ _, ?_, ?_, ?_⟩
        · show 10 ∣ min (st.length + 10) HISTORY_MAX
          rcases le_total (st.length + 10) HISTORY_MAX with hle | hle
          · rw [min_eq_left hle]
            exact Dvd.dvd.add h2 (dvd_refl 10)
          · rw [min_eq_right hle, hM]
            decide
        · simp only [List.length_append, List.length_singleton]
          rw [hM] at hm ⊢
          exact le_min (by omega) (by omega)
        · intro hc
          exact absurd hc (by simp)
    · rw [if_neg ha, if_neg (fun h => hf h.1), if_neg hf]
      refine ⟨h1, h2, ?_, ?_⟩
      · simp only [List.length_append, List.length_singleton]
        omega
      · intro hc
        exact absurd hc (by simpa using ha)
